import Mathlib

/-!
Verification of the deno-keyv providers (`src/SqliteProvider.ts`,
`src/PostgresProvider.ts`): a dot-path key-value store facade over a
relational backend with an in-memory cache.

The embedding models JavaScript values as an inductive `Value`, the
in-memory `Collection` (a JS `Map`) and JS object fields as association
lists, the SQL table as an ordered list of `(key, value)` rows of
serialized text, and each provider method as a pure function from state
to result and new state.  The lodash path helpers and the JSON
serialization are external collaborators of the source; they are
modelled from the spec (sections 4.1 and 6) with executable definitions.
-/

set_option maxRecDepth 8000

namespace DenoKeyv

/-- A JavaScript value, restricted to the fragment the store handles:
`undefined`, `null`, booleans, integer numbers, strings, arrays and
plain objects (ordered field lists). -/
inductive Value where
  | vUndefined : Value
  | vNull : Value
  | vBool : Bool → Value
  | vNum : Int → Value
  | vStr : String → Value
  | vArr : List Value → Value
  | vObj : List (String × Value) → Value

/-- JavaScript falsiness for the modelled fragment: `undefined`, `null`,
`false`, `0` and the empty string are falsy; arrays and objects are
always truthy. -/
def jsFalsy : Value → Bool
  | .vUndefined => true
  | .vNull => true
  | .vBool b => !b
  | .vNum n => n == 0
  | .vStr s => s == ""
  | .vArr _ => false
  | .vObj _ => false

/-- Lookup in a JS `Map` / object field list: first binding wins. -/
def mapGet {α : Type} : List (String × α) → String → Option α
  | [], _ => none
  | (k0, v0) :: rest, k => if k0 = k then some v0 else mapGet rest k

/-- JS `Map.prototype.set` and object field assignment: replace the existing
binding in place, or append a new one. -/
def mapSet {α : Type} : List (String × α) → String → α → List (String × α)
  | [], k, v => [(k, v)]
  | (k0, v0) :: rest, k, v =>
    if k0 = k then (k0, v) :: rest else (k0, v0) :: mapSet rest k v

/-- JS `Map.prototype.has`. -/
def mapHas {α : Type} (m : List (String × α)) (k : String) : Bool :=
  (mapGet m k).isSome

/-- JS `Map.prototype.delete`: remove the binding for `k`. -/
def mapDelete {α : Type} : List (String × α) → String → List (String × α)
  | [], _ => []
  | (k0, v0) :: rest, k =>
    if k0 = k then mapDelete rest k else (k0, v0) :: mapDelete rest k

/-- Models `collection.get(key) || \x7b\x7d` in the providers: an absent or falsy
cached document is replaced by a fresh empty object. -/
def jsOrEmptyObj (o : Option Value) : Value :=
  match o with
  | some v => if jsFalsy v then .vObj [] else v
  | none => .vObj []

/-- Modelled from the spec (4.1, lodash `_.get` with an explicit default):
walks nested mappings along the path; the default is returned when an
intermediate segment is absent or the current value is not a mapping.
An empty path returns the document itself. -/
def jsGetPath : Value → List String → Value → Value
  | v, [], _ => v
  | .vObj fs, p :: ps, d =>
    match mapGet fs p with
    | some v => jsGetPath v ps d
    | none => d
  | _, _ :: _, d => d

/-- Modelled from the spec (4.1, lodash `_.set`): creates intermediate
mappings as needed and sets the leaf; a non-object document is returned
unchanged (lodash `baseSet` returns a non-object root as is); an empty
path also leaves the document unchanged. -/
def setPath : Value → List String → Value → Value
  | doc, [], _ => doc
  | .vObj fs, [p], v => .vObj (mapSet fs p v)
  | .vObj fs, p :: q :: ps, v =>
    let child := match mapGet fs p with
      | some (.vObj gs) => Value.vObj gs
      | _ => Value.vObj []
    .vObj (mapSet fs p (setPath child (q :: ps) v))
  | doc, _ :: _, _ => doc

/-- Modelled from the spec (4.1, lodash `_.has`): same traversal as
`jsGetPath`, true iff the final segment exists. A non-object document
has no paths. -/
def jsHasPath : Value → List String → Bool
  | .vObj fs, [p] => (mapGet fs p).isSome
  | .vObj fs, p :: q :: ps =>
    match mapGet fs p with
    | some child => jsHasPath child (q :: ps)
    | none => false
  | _, _ => false

/-- Helper for `splitDot`: accumulates the current segment. -/
def splitDotAux : List Char → List Char → List String
  | [], acc => [⟨acc⟩]
  | c :: cs, acc =>
    if c = '.' then ⟨acc⟩ :: splitDotAux cs [] else splitDotAux cs (acc ++ [c])

/-- JS `key.split(".")`: the list of dot-separated segments. -/
def splitDot (k : String) : List String :=
  splitDotAux k.data []

/-- Helper for `hasDot`. -/
def hasDotAux : List Char → Bool
  | [] => false
  | c :: cs => if c = '.' then true else hasDotAux cs

/-- JS `key.includes(".")`. -/
def hasDot (k : String) : Bool :=
  hasDotAux k.data

/-! ## Serialization

The providers call `JSON.stringify` / `JSON.parse` (the JS standard
library, an external collaborator).  Modelled from the spec (section 6):
a structured-text encoding that any standard library round-trips.  The
definitions below implement compact JSON for the `Value` fragment
(string escaping restricted to quote and backslash, which covers every
value the development uses). -/

/-- The character `\x7b` (opening curly brace). -/
def lbraceChar : Char := Char.ofNat 123

/-- The character `\x7d` (closing curly brace). -/
def rbraceChar : Char := Char.ofNat 125

/-- Escape quote and backslash, as `JSON.stringify` does for the
strings appearing in this development. -/
def jEscape (s : String) : String :=
  ⟨s.data.foldr (fun c acc => if c = '"' || c = '\\' then '\\' :: c :: acc else c :: acc) []⟩

mutual

/-- Models `JSON.stringify` on the modelled fragment. -/
def jstr : Value → String
  | .vUndefined => "undefined"
  | .vNull => "null"
  | .vBool b => if b then "true" else "false"
  | .vNum n => if n < 0 then "-" ++ toString (-n).toNat else toString n.toNat
  | .vStr s => "\"" ++ jEscape s ++ "\""
  | .vArr [] => "[]"
  | .vArr (x :: xs) => "[" ++ jstr x ++ jstrTailItems xs ++ "]"
  | .vObj [] => "\x7b\x7d"
  | .vObj ((k, v) :: fs) =>
    "\x7b" ++ "\"" ++ jEscape k ++ "\":" ++ jstr v ++ jstrTailFields fs ++ "\x7d"

/-- Remaining array items, each preceded by a comma. -/
def jstrTailItems : List Value → String
  | [] => ""
  | x :: xs => "," ++ jstr x ++ jstrTailItems xs

/-- Remaining object fields, each preceded by a comma. -/
def jstrTailFields : List (String × Value) → String
  | [] => ""
  | (k, v) :: fs => "," ++ "\"" ++ jEscape k ++ "\":" ++ jstr v ++ jstrTailFields fs

end

/-- Unescape one escaped character of a JSON string literal. -/
def jUnescape (c : Char) : Char := c

/-- Parse a JSON string body (after the opening quote), returning the
string and the remaining input. -/
def jparseStrAux : List Char → List Char → Option (String × List Char)
  | [], _ => none
  | '"' :: rest, acc => some (⟨acc⟩, rest)
  | '\\' :: [], _ => none
  | '\\' :: d :: rest, acc => jparseStrAux rest (acc ++ [jUnescape d])
  | c :: rest, acc => jparseStrAux rest (acc ++ [c])

/-- Consume a maximal run of decimal digits. -/
def jparseDigits : List Char → List Char → (List Char × List Char)
  | [], acc => (acc, [])
  | c :: rest, acc =>
    if c.isDigit then jparseDigits rest (acc ++ [c]) else (acc, c :: rest)

/-- Decimal digits to a natural number. -/
def digitsToNat (ds : List Char) : Nat :=
  ds.foldl (fun n c => 10 * n + (c.toNat - 48)) 0

mutual

/-- Fuel-indexed JSON value parser over characters. -/
def jparseVal : Nat → List Char → Option (Value × List Char)
  | 0, _ => none
  | fuel + 1, cs =>
    match cs with
    | [] => none
    | 'n' :: 'u' :: 'l' :: 'l' :: r => some (.vNull, r)
    | 't' :: 'r' :: 'u' :: 'e' :: r => some (.vBool true, r)
    | 'f' :: 'a' :: 'l' :: 's' :: 'e' :: r => some (.vBool false, r)
    | '"' :: r => (jparseStrAux r []).map (fun p => (.vStr p.1, p.2))
    | '[' :: ']' :: r => some (.vArr [], r)
    | '[' :: r => (jparseItems fuel r).map (fun p => (.vArr p.1, p.2))
    | '-' :: r =>
      match jparseDigits r [] with
      | ([], _) => none
      | (ds, r2) => some (.vNum (-(Int.ofNat (digitsToNat ds))), r2)
    | c :: r =>
      if c = lbraceChar then
        match r with
        | [] => none
        | c2 :: r2 =>
          if c2 = rbraceChar then some (.vObj [], r2)
          else (jparseFields fuel r).map (fun p => (.vObj p.1, p.2))
      else if c.isDigit then
        match jparseDigits (c :: r) [] with
        | ([], _) => none
        | (ds, r2) => some (.vNum (Int.ofNat (digitsToNat ds)), r2)
      else none

/-- Comma-separated array items up to the closing bracket. -/
def jparseItems : Nat → List Char → Option (List Value × List Char)
  | 0, _ => none
  | fuel + 1, cs =>
    match jparseVal fuel cs with
    | none => none
    | some (v, r) =>
      match r with
      | ',' :: r2 => (jparseItems fuel r2).map (fun p => (v :: p.1, p.2))
      | ']' :: r2 => some ([v], r2)
      | _ => none

/-- Comma-separated object fields up to the closing brace. -/
def jparseFields : Nat → List Char → Option (List (String × Value) × List Char)
  | 0, _ => none
  | fuel + 1, cs =>
    match cs with
    | '"' :: r =>
      match jparseStrAux r [] with
      | none => none
      | some (k, r1) =>
        match r1 with
        | ':' :: r2 =>
          match jparseVal fuel r2 with
          | none => none
          | some (v, r3) =>
            match r3 with
            | [] => none
            | ',' :: r4 => (jparseFields fuel r4).map (fun p => ((k, v) :: p.1, p.2))
            | c :: r4 => if c = rbraceChar then some ([(k, v)], r4) else none
        | _ => none
    | _ => none

end

/-- Models `JSON.parse` on the modelled fragment: `none` models a thrown
`SyntaxError`. -/
def jparse (s : String) : Option Value :=
  match jparseVal (2 * s.data.length + 2) s.data with
  | some (v, []) => some v
  | _ => none

/-! ## Backend store model

The SQL table is an ordered list of `(key, value)` rows; `value` is
serialized text.  Rows are ordered by insertion (SQLite rowid order);
the schema has no uniqueness constraint, so duplicate keys are
representable. -/

/-- Query `SELECT * FROM t WHERE key = ?`: the matching rows in order. -/
def selectKey : List (String × String) → String → List (String × String)
  | [], _ => []
  | (k0, v0) :: rest, k =>
    if k0 = k then (k0, v0) :: selectKey rest k else selectKey rest k

/-- Query `INSERT INTO t (key, value) VALUES (?, ?)`. -/
def insertRow (rows : List (String × String)) (k v : String) : List (String × String) :=
  rows ++ [(k, v)]

/-- Query `UPDATE t SET value = ? WHERE key = ?`: rewrites every matching row. -/
def updateKey : List (String × String) → String → String → List (String × String)
  | [], _, _ => []
  | (k0, v0) :: rest, k, v =>
    if k0 = k then (k0, v) :: updateKey rest k v else (k0, v0) :: updateKey rest k v

/-- Query `DELETE FROM t WHERE key = ?`. -/
def deleteKey : List (String × String) → String → List (String × String)
  | [], _ => []
  | (k0, v0) :: rest, k =>
    if k0 = k then deleteKey rest k else (k0, v0) :: deleteKey rest k

/-- The state a provider instance owns: the backing table and the
in-memory `Collection` cache. -/
structure StoreState where
  table : List (String × String)
  collection : List (String × Value)

/-! ## SqliteProvider (`src/SqliteProvider.ts`)

Each method is translated line by line.  Rows are modelled as
`(key, value)` pairs; the `id` column of the SQLite schema plays no
role in any query the provider issues.  A method that JS would let
return `undefined` (a select with no rows) returns `none`. -/

namespace SqliteProvider

/-- Method `set(key, value)` (SqliteProvider.ts lines 57-101).  Note the two
source quirks kept verbatim: the nested-document branch is guarded by
`unparsed.length > 1` (one-segment nested paths fall into the root
branch), and the INSERT is guarded by `fetchQuery.length < 0` (never
true, so no row is ever inserted). -/
def set (key : String) (value : Value) (st : StoreState) :
    Option (String × String) × StoreState :=
  let unparsed := splitDot key
  let root := unparsed.headD ""
  let rest := unparsed.tail
  let cachedData := jsOrEmptyObj (mapGet st.collection root)
  let lodashed0 := setPath cachedData (if rest.length > 1 then rest else [root]) value
  let collection1 :=
    if rest.length > 1 then mapSet st.collection root lodashed0
    else mapSet st.collection root value
  let lodashed := if rest.length > 1 then lodashed0 else value
  let fetchQuery := selectKey st.table root
  let table1 :=
    if fetchQuery.length < 0 then insertRow st.table root (jstr lodashed) else st.table
  let table2 := updateKey table1 root (jstr lodashed)
  ((selectKey table2 root).head?, ⟨table2, collection1⟩)

/-- Method `get(key, defaultValue = "")` (lines 112-135).  In the nested
branch the source captures `collection` before the default-creating
`set` and resolves the path against that snapshot. -/
def get (key : String) (defaultValue : Value) (st : StoreState) : Value × StoreState :=
  if hasDot key then
    let array := splitDot key
    let root := array.headD ""
    let collection := mapGet st.collection root
    let exists0 := mapHas st.collection root
    let prop := array.tail
    let st1 := if exists0 then st else (set key defaultValue st).2
    (jsGetPath (collection.getD .vUndefined) prop .vNull, st1)
  else
    let exists0 := mapHas st.collection key
    let st1 := if exists0 then st else (set key defaultValue st).2
    ((mapGet st1.collection key).getD .vUndefined, st1)

/-- Method `fetch(key, defaultValue = "")` (lines 140-142): calls `get` and
returns nothing, i.e. `undefined`. -/
def fetch (key : String) (defaultValue : Value) (st : StoreState) : Value × StoreState :=
  (.vUndefined, (get key defaultValue st).2)

/-- One iteration of the `push` loop (lines 155-172).  `fetched` is a
local variable: it is only advanced in the array branch, where the JS
code mutates the fetched array in place. -/
def pushStep (key : String) (acc : Value × StoreState) (v : Value) : Value × StoreState :=
  let (fetched, st) := acc
  if jsFalsy fetched then (fetched, (set key (.vArr [v]) st).2)
  else
    match fetched with
    | .vArr xs => (.vArr (xs ++ [v]), (set key (.vArr (xs ++ [v])) st).2)
    | _ => (fetched, (set key (.vArr [fetched, v]) st).2)

/-- Method `push(key, ...value)` (lines 153-175): fetch once via `get`, loop
over the values, then return a trailing `get`. -/
def push (key : String) (values : List Value) (st : StoreState) : Value × StoreState :=
  let first := get key (.vStr "") st
  let final := values.foldl (pushStep key) first
  get key (.vStr "") final.2

/-- Method `all()` (lines 184-191): re-query every row, `JSON.parse` each
value into a fresh `Map`; `none` models the enumeration aborting on a
parse failure. -/
def all (st : StoreState) : Option (List (String × Value)) :=
  st.table.foldlM (fun acc r => (jparse r.2).map (fun v => mapSet acc r.1 v)) []

/-- Method `has(key)` (lines 201-209): nested keys go through `get` on the
root (which can create a default row); root-only keys check the cache
directly. -/
def has (key : String) (st : StoreState) : Bool × StoreState :=
  if hasDot key then
    let sp := splitDot key
    let root := sp.headD ""
    let res := get root (.vStr "") st
    (jsHasPath res.1 sp.tail, res.2)
  else
    (mapHas st.collection key, st)

/-- Method `delete(key)` (lines 43-46): delete the rows and the cache entry
for the full key string; the key is never split. -/
def delete (key : String) (st : StoreState) : StoreState :=
  ⟨deleteKey st.table key, mapDelete st.collection key⟩

/-- Method `init()` (lines 31-35): load every row and store `row.value` — the
raw serialized string — into the collection. -/
def init (st : StoreState) : StoreState :=
  ⟨st.table, st.table.foldl (fun c r => mapSet c r.1 (.vStr r.2)) st.collection⟩

end SqliteProvider

/-! ## PostgresProvider (`src/PostgresProvider.ts`)

Same facade over the same state shape.  The `async`/`await` sequencing
is strictly ordered (spec section 5), so the methods are the evident
sequential functions.  Differences from the SQLite variant are kept
verbatim: the nested branch triggers for every dotted key
(`unparsed || key`), the INSERT guard is `fetchQuery.length <= 0`, and
`get`'s default is coerced with `defaultValue || ""`. -/

namespace PostgresProvider

/-- Models `defaultValue || ""` (lines 158 and 164): an absent or falsy
default becomes the empty string. -/
def pgDefault : Option Value → Value
  | some d => if jsFalsy d then .vStr "" else d
  | none => .vStr ""

/-- Method `set(key, value)` (lines 91-136). -/
def set (key : String) (value : Value) (st : StoreState) :
    Option (String × String) × StoreState :=
  let root := if hasDot key then (splitDot key).headD "" else key
  let unparsed : Option (List String) :=
    if hasDot key then some (splitDot key).tail else none
  let cachedData := jsOrEmptyObj (mapGet st.collection root)
  let lodashed0 := setPath cachedData (unparsed.getD [root]) value
  let collection1 :=
    match unparsed with
    | some _ => mapSet st.collection root lodashed0
    | none => mapSet st.collection root value
  let lodashed := match unparsed with | some _ => lodashed0 | none => value
  let fetchQuery := selectKey st.table root
  let table1 :=
    if fetchQuery.length ≤ 0 then insertRow st.table root (jstr lodashed) else st.table
  let table2 := updateKey table1 root (jstr lodashed)
  ((selectKey table2 root).head?, ⟨table2, collection1⟩)

/-- Method `get(key, defaultValue?)` (lines 147-170), with the same
pre-`set` snapshot read in the nested branch as the SQLite variant. -/
def get (key : String) (defaultValue : Option Value) (st : StoreState) :
    Value × StoreState :=
  if hasDot key then
    let array := splitDot key
    let root := array.headD ""
    let collection := mapGet st.collection root
    let exists0 := mapHas st.collection root
    let prop := array.tail
    let st1 := if exists0 then st else (set key (pgDefault defaultValue) st).2
    (jsGetPath (collection.getD .vUndefined) prop .vNull, st1)
  else
    let exists0 := mapHas st.collection key
    let st1 := if exists0 then st else (set key (pgDefault defaultValue) st).2
    ((mapGet st1.collection key).getD .vUndefined, st1)

/-- Method `fetch(key, defaultValue?)` (lines 175-181): both branches await
`get` and return nothing, i.e. `undefined`. -/
def fetch (key : String) (defaultValue : Option Value) (st : StoreState) :
    Value × StoreState :=
  let truthy := !(jsFalsy (defaultValue.getD .vUndefined))
  (.vUndefined, if truthy then (get key defaultValue st).2 else (get key none st).2)

/-- One iteration of the `push` loop (lines 196-214); same structure as
the SQLite variant. -/
def pushStep (key : String) (acc : Value × StoreState) (v : Value) : Value × StoreState :=
  let (fetched, st) := acc
  if jsFalsy fetched then (fetched, (set key (.vArr [v]) st).2)
  else
    match fetched with
    | .vArr xs => (.vArr (xs ++ [v]), (set key (.vArr (xs ++ [v])) st).2)
    | _ => (fetched, (set key (.vArr [fetched, v]) st).2)

/-- Method `push(key, ...value)` (lines 192-217). -/
def push (key : String) (values : List Value) (st : StoreState) : Value × StoreState :=
  let first := get key none st
  let final := values.foldl (pushStep key) first
  get key none final.2

/-- Method `all()` (lines 226-235). -/
def all (st : StoreState) : Option (List (String × Value)) :=
  st.table.foldlM (fun acc r => (jparse r.2).map (fun v => mapSet acc r.1 v)) []

/-- Method `has(key)` (lines 245-255). -/
def has (key : String) (st : StoreState) : Bool × StoreState :=
  if hasDot key then
    let sp := splitDot key
    let root := sp.headD ""
    let res := get root none st
    (jsHasPath res.1 sp.tail, res.2)
  else
    (mapHas st.collection key, st)

/-- Method `delete(key)` (lines 56-62). -/
def delete (key : String) (st : StoreState) : StoreState :=
  ⟨deleteKey st.table key, mapDelete st.collection key⟩

/-- Method `init()` (lines 70-80): `CREATE TABLE IF NOT EXISTS` (a no-op on
the modelled table) followed by loading every row's raw serialized
string into the collection. -/
def init (st : StoreState) : StoreState :=
  ⟨st.table, st.table.foldl (fun c r => mapSet c r.1 (.vStr r.2)) st.collection⟩

end PostgresProvider

/-! ## Supporting lemmas -/

theorem hasDotAux_false_not_mem :
    ∀ cs : List Char, hasDotAux cs = false → '.' ∉ cs := by
  intro cs h
  induction cs with
  | nil => simp
  | cons c cs ih =>
    by_cases hc : c = '.'
    · simp [hasDotAux, hc] at h
    · simp [hasDotAux, hc] at h
      simp [hc, ih h]
      intro e
      exact hc e.symm

theorem splitDotAux_no_dot :
    ∀ (cs acc : List Char), '.' ∉ cs → splitDotAux cs acc = [⟨acc ++ cs⟩] := by
  intro cs
  induction cs with
  | nil => intro acc _; simp [splitDotAux]
  | cons c cs ih =>
    intro acc h
    have hc : ¬ c = '.' := fun e => h (by simp [e])
    have hcs : '.' ∉ cs := fun m => h (by simp [m])
    simp [splitDotAux, hc, ih (acc ++ [c]) hcs]

/-- A key with no dot splits into the single segment that is the key
itself. -/
theorem splitDot_of_hasDot_false (k : String) (h : hasDot k = false) :
    splitDot k = [k] := by
  unfold splitDot
  rw [splitDotAux_no_dot k.data [] (hasDotAux_false_not_mem k.data h)]
  rfl

theorem splitDotAux_head_no_dot :
    ∀ (cs acc : List Char) (r : String) (tl : List String),
      splitDotAux cs acc = r :: tl → '.' ∉ acc → '.' ∉ r.data := by
  intro cs
  induction cs with
  | nil =>
    intro acc r tl h hacc
    simp [splitDotAux] at h
    rw [← h.1]
    exact hacc
  | cons c cs ih =>
    intro acc r tl h hacc
    by_cases hc : c = '.'
    · simp [splitDotAux, hc] at h
      rw [← h.1]
      exact hacc
    · simp [splitDotAux, hc] at h
      exact ih (acc ++ [c]) r tl h (by simp [hacc]; intro e; exact hc e.symm)

theorem splitDotAux_two_mem :
    ∀ (cs acc : List Char) (r p : String) (tl : List String),
      splitDotAux cs acc = r :: p :: tl → '.' ∈ cs := by
  intro cs
  induction cs with
  | nil => intro acc r p tl h; simp [splitDotAux] at h
  | cons c cs ih =>
    intro acc r p tl h
    by_cases hc : c = '.'
    · simp [hc]
    · simp [splitDotAux, hc] at h
      exact List.mem_cons_of_mem c (ih (acc ++ [c]) r p tl h)

/-- The root segment of a dotted key is a different string from the
key itself. -/
theorem root_ne_key (k r p : String) (tl : List String)
    (h : splitDot k = r :: p :: tl) : r ≠ k := by
  intro e
  have hmem : '.' ∈ k.data := splitDotAux_two_mem k.data [] r p tl h
  have hno : '.' ∉ r.data := splitDotAux_head_no_dot k.data [] r (p :: tl) h (by simp)
  rw [e] at hno
  exact hno hmem

theorem mapGet_mapSet_self {α : Type} (m : List (String × α)) (k : String) (v : α) :
    mapGet (mapSet m k v) k = some v := by
  induction m with
  | nil => simp [mapGet, mapSet]
  | cons hd tl ih =>
    obtain ⟨k0, v0⟩ := hd
    by_cases h : k0 = k <;> simp [mapGet, mapSet, h, ih]

theorem mapGet_mapDelete_self {α : Type} (m : List (String × α)) (k : String) :
    mapGet (mapDelete m k) k = none := by
  induction m with
  | nil => simp [mapGet, mapDelete]
  | cons hd tl ih =>
    obtain ⟨k0, v0⟩ := hd
    by_cases h : k0 = k <;> simp [mapGet, mapDelete, h, ih]

theorem mapGet_mapDelete_ne {α : Type} (m : List (String × α)) (k r : String)
    (h : r ≠ k) : mapGet (mapDelete m k) r = mapGet m r := by
  induction m with
  | nil => simp [mapDelete]
  | cons hd tl ih =>
    obtain ⟨k0, v0⟩ := hd
    by_cases h0 : k0 = k
    · simp [mapGet, mapDelete, h0, ih, Ne.symm h]
    · by_cases h1 : k0 = r <;> simp [mapGet, mapDelete, h0, h1, ih, h]

theorem selectKey_deleteKey_self (t : List (String × String)) (k : String) :
    selectKey (deleteKey t k) k = [] := by
  induction t with
  | nil => simp [selectKey, deleteKey]
  | cons hd tl ih =>
    obtain ⟨k0, v0⟩ := hd
    by_cases h : k0 = k <;> simp [selectKey, deleteKey, h, ih]

theorem selectKey_deleteKey_ne (t : List (String × String)) (k r : String)
    (h : r ≠ k) : selectKey (deleteKey t k) r = selectKey t r := by
  induction t with
  | nil => simp [deleteKey]
  | cons hd tl ih =>
    obtain ⟨k0, v0⟩ := hd
    by_cases h0 : k0 = k
    · simp [selectKey, deleteKey, h0, ih, Ne.symm h]
    · by_cases h1 : k0 = r <;> simp [selectKey, deleteKey, h0, h1, ih, h]

theorem mapGet_eq_none_of_mapHas {α : Type} (m : List (String × α)) (k : String)
    (h : mapHas m k = false) : mapGet m k = none := by
  unfold mapHas at h
  cases hm : mapGet m k <;> simp [hm] at h ⊢

/-! ## Claim theorems -/

/-- C1: the claim says `set("a.b", v)` then `get("a.b")` returns `v`
and `get("a")` returns a document with field `b` bound to `v`.  On the
SqliteProvider, starting from an empty store, `set("john.gender",
"male")` stores the raw value under the root (its nested branch
requires more than one path segment), so `get("john.gender")` returns
`null` and `get("john")` returns the bare string `"male"` instead of a
document.  The PostgresProvider behaves exactly as the claim states at
the same input, witnessing the intent. -/
theorem c1_sqlite_nested_set_get_fails :
    (SqliteProvider.get "john.gender" (.vStr "")
      (SqliteProvider.set "john.gender" (.vStr "male") ⟨[], []⟩).2).1 = Value.vNull ∧
    (SqliteProvider.get "john" (.vStr "")
      (SqliteProvider.set "john.gender" (.vStr "male") ⟨[], []⟩).2).1 = Value.vStr "male" ∧
    Value.vNull ≠ Value.vStr "male" ∧
    (PostgresProvider.get "john.gender" none
      (PostgresProvider.set "john.gender" (.vStr "male") ⟨[], []⟩).2).1 = Value.vStr "male" ∧
    (PostgresProvider.get "john" none
      (PostgresProvider.set "john.gender" (.vStr "male") ⟨[], []⟩).2).1
      = Value.vObj [("gender", Value.vStr "male")] :=
  ⟨rfl, rfl, fun h => Value.noConfusion h, rfl, rfl⟩

/-- C2: the claim says the two providers implement an identical
contract for every operation sequence.  The single call
`set("a.b", 5)` from the same empty state already separates them: the
SqliteProvider caches the bare `5` under root `"a"`, writes no table
row, and returns `undefined`, while the PostgresProvider caches the
document with field `b = 5`, inserts the corresponding row, and
returns it. -/
theorem c2_providers_disagree :
    (SqliteProvider.set "a.b" (.vNum 5) ⟨[], []⟩).2.collection = [("a", Value.vNum 5)] ∧
    (PostgresProvider.set "a.b" (.vNum 5) ⟨[], []⟩).2.collection
      = [("a", Value.vObj [("b", Value.vNum 5)])] ∧
    Value.vNum 5 ≠ Value.vObj [("b", Value.vNum 5)] ∧
    (SqliteProvider.set "a.b" (.vNum 5) ⟨[], []⟩).2.table = [] ∧
    (PostgresProvider.set "a.b" (.vNum 5) ⟨[], []⟩).2.table
      = [("a", jstr (Value.vObj [("b", Value.vNum 5)]))] ∧
    (SqliteProvider.set "a.b" (.vNum 5) ⟨[], []⟩).1 = none ∧
    (PostgresProvider.set "a.b" (.vNum 5) ⟨[], []⟩).1
      = some ("a", jstr (Value.vObj [("b", Value.vNum 5)])) :=
  ⟨rfl, rfl, fun h => Value.noConfusion h, rfl, rfl, rfl, rfl⟩

/-- C3: the claim says every successful `set` leaves the cache entry
and the stored row equal for the root key.  On the SqliteProvider,
`set("p", 1)` from an empty store creates the cache entry but no table
row (its INSERT guard `fetchQuery.length < 0` never holds), so the
cache has a document where the store has nothing.  The
PostgresProvider satisfies the claimed equality at the same input:
its row deserializes back to the cached document. -/
theorem c3_sqlite_set_breaks_write_through :
    (SqliteProvider.set "p" (.vNum 1) ⟨[], []⟩).2.collection = [("p", Value.vNum 1)] ∧
    selectKey (SqliteProvider.set "p" (.vNum 1) ⟨[], []⟩).2.table "p" = [] ∧
    (PostgresProvider.set "p" (.vNum 1) ⟨[], []⟩).2.collection = [("p", Value.vNum 1)] ∧
    selectKey (PostgresProvider.set "p" (.vNum 1) ⟨[], []⟩).2.table "p"
      = [("p", jstr (Value.vNum 1))] ∧
    jparse (jstr (Value.vNum 1)) = some (Value.vNum 1) :=
  ⟨rfl, rfl, rfl, rfl, rfl⟩

/-- C4: the claim says `set` on a missing root inserts then updates a
row, so `all()` after two `set` calls on distinct roots contains both.
On the SqliteProvider, after `set("p", 1)` and `set("q", 2)` from an
empty table, `all()` is the empty mapping (no INSERT ever runs).  The
PostgresProvider yields both bindings as claimed. -/
theorem c4_sqlite_never_inserts :
    SqliteProvider.all
      (SqliteProvider.set "q" (.vNum 2)
        (SqliteProvider.set "p" (.vNum 1) ⟨[], []⟩).2).2 = some [] ∧
    (SqliteProvider.set "q" (.vNum 2)
      (SqliteProvider.set "p" (.vNum 1) ⟨[], []⟩).2).2.table = [] ∧
    PostgresProvider.all
      (PostgresProvider.set "q" (.vNum 2)
        (PostgresProvider.set "p" (.vNum 1) ⟨[], []⟩).2).2
      = some [("p", Value.vNum 1), ("q", Value.vNum 2)] :=
  ⟨rfl, rfl, rfl⟩

/-- C5: the claim says `init()` populates the cache with the
deserialized row values.  Both providers store `row.value` — the raw
serialized string — without parsing (unlike `all()`), so for a table
holding the serialization of the document with `money = 100` under key
`"user"`, the cache entry after `init` is the string value, which is
not the parsed document, and `get("user")` returns that string. -/
theorem c5_init_caches_serialized_string :
    (SqliteProvider.init ⟨[("user", jstr (Value.vObj [("money", Value.vNum 100)]))], []⟩).collection
      = [("user", Value.vStr (jstr (Value.vObj [("money", Value.vNum 100)])))] ∧
    (PostgresProvider.init ⟨[("user", jstr (Value.vObj [("money", Value.vNum 100)]))], []⟩).collection
      = [("user", Value.vStr (jstr (Value.vObj [("money", Value.vNum 100)])))] ∧
    jparse (jstr (Value.vObj [("money", Value.vNum 100)]))
      = some (Value.vObj [("money", Value.vNum 100)]) ∧
    Value.vStr (jstr (Value.vObj [("money", Value.vNum 100)]))
      ≠ Value.vObj [("money", Value.vNum 100)] ∧
    (SqliteProvider.get "user" (.vStr "")
      (SqliteProvider.init ⟨[("user", jstr (Value.vObj [("money", Value.vNum 100)]))], []⟩)).1
      = Value.vStr (jstr (Value.vObj [("money", Value.vNum 100)])) :=
  ⟨rfl, rfl, rfl, fun h => Value.noConfusion h, rfl⟩

/-- C7: the claim says each pushed value becomes the current value for
the next iteration, so `push(k, v1, v2)` on an unset path yields
`[v1, v2]`.  The loop never reassigns `fetched` in the empty and
non-array branches, so on the PostgresProvider `push("a.items", "x",
"y")` on an unset path yields `["y"]` (the first value is lost), and
on the SqliteProvider `push("k", 1, 2)` yields `[2]`; a single-value
nested push on the SqliteProvider yields `null` outright.  The
single-value sub-properties of the claim do hold on the
PostgresProvider (last three conjuncts). -/
theorem c7_multivalue_push_drops_values :
    (PostgresProvider.push "a.items" [.vStr "x", .vStr "y"] ⟨[], []⟩).1
      = Value.vArr [Value.vStr "y"] ∧
    Value.vArr [Value.vStr "y"] ≠ Value.vArr [Value.vStr "x", Value.vStr "y"] ∧
    (SqliteProvider.push "k" [.vNum 1, .vNum 2] ⟨[], []⟩).1 = Value.vArr [Value.vNum 2] ∧
    (SqliteProvider.push "a.items" [.vStr "x"] ⟨[], []⟩).1 = Value.vNull ∧
    (PostgresProvider.push "a.items" [.vStr "x"] ⟨[], []⟩).1 = Value.vArr [Value.vStr "x"] ∧
    (PostgresProvider.push "a.items" [.vStr "y"]
      (PostgresProvider.push "a.items" [.vStr "x"] ⟨[], []⟩).2).1
      = Value.vArr [Value.vStr "x", Value.vStr "y"] ∧
    (PostgresProvider.push "a.single" [.vStr "y"]
      (PostgresProvider.set "a.single" (.vStr "x") ⟨[], []⟩).2).1
      = Value.vArr [Value.vStr "x", Value.vStr "y"] :=
  ⟨rfl, fun h => by injection h with h1; injection h1 with hh ht; exact List.noConfusion ht,
   rfl, rfl, rfl, rfl, rfl⟩

/-- C8: the claim (and the spec) say `fetch` returns the same value as
`get`.  In both providers `fetch` awaits `get` and discards its
result, returning `undefined`, while `get` at the same input returns
the stored value `5`; the state change `fetch` performs is the one
`get` performs. -/
theorem c8_fetch_discards_return :
    (SqliteProvider.fetch "k" (.vStr "")
      (SqliteProvider.set "k" (.vNum 5) ⟨[], []⟩).2).1 = Value.vUndefined ∧
    (SqliteProvider.get "k" (.vStr "")
      (SqliteProvider.set "k" (.vNum 5) ⟨[], []⟩).2).1 = Value.vNum 5 ∧
    (PostgresProvider.fetch "k" none
      (PostgresProvider.set "k" (.vNum 5) ⟨[], []⟩).2).1 = Value.vUndefined ∧
    (PostgresProvider.get "k" none
      (PostgresProvider.set "k" (.vNum 5) ⟨[], []⟩).2).1 = Value.vNum 5 ∧
    Value.vUndefined ≠ Value.vNum 5 ∧
    (SqliteProvider.fetch "k" (.vStr "")
      (SqliteProvider.set "k" (.vNum 5) ⟨[], []⟩).2).2
      = (SqliteProvider.get "k" (.vStr "")
          (SqliteProvider.set "k" (.vNum 5) ⟨[], []⟩).2).2 ∧
    (PostgresProvider.fetch "k" none
      (PostgresProvider.set "k" (.vNum 5) ⟨[], []⟩).2).2
      = (PostgresProvider.get "k" none
          (PostgresProvider.set "k" (.vNum 5) ⟨[], []⟩).2).2 :=
  ⟨rfl, rfl, rfl, rfl, fun h => Value.noConfusion h, rfl, rfl⟩

/-- C6 counterexample: the claim says a cache miss on `get(key,
defaultValue)` persists the default and returns it resolved at the
key's path, for nested keys too.  At `get("a.b", 5)` on an empty
state, both providers persist the default (the PostgresProvider caches
the document with `b = 5`, the SqliteProvider caches the bare `5`) but
return `null`, because the nested branch resolves the path against the
cache snapshot captured before the internal `set`. -/
theorem c6_nested_get_miss_returns_null :
    (PostgresProvider.get "a.b" (some (Value.vNum 5)) ⟨[], []⟩).1 = Value.vNull ∧
    (PostgresProvider.get "a.b" (some (Value.vNum 5)) ⟨[], []⟩).2.collection
      = [("a", Value.vObj [("b", Value.vNum 5)])] ∧
    Value.vNull ≠ Value.vNum 5 ∧
    (SqliteProvider.get "a.b" (Value.vNum 5) ⟨[], []⟩).1 = Value.vNull ∧
    (SqliteProvider.get "a.b" (Value.vNum 5) ⟨[], []⟩).2.collection
      = [("a", Value.vNum 5)] :=
  ⟨rfl, rfl, fun h => Value.noConfusion h, rfl, rfl⟩

/-- C6 (amended): for every key whose root is absent from the cache,
`get(key, defaultValue)` first calls `set` with the default (the
PostgresProvider coerces an absent or falsy default to `""`); for a
root-only key it then reads back and returns the just-persisted value,
while for a nested key it returns the resolution against the cache
snapshot taken before the `set`, i.e. `null` on a miss. -/
theorem c6_amended_get_default (s1 s2 : StoreState) (kR kN : String)
    (dv : Value) (dvp : Option Value) (r p : String) (tl : List String)
    (hR : hasDot kR = false)
    (hmR1 : mapHas s1.collection kR = false)
    (hmR2 : mapHas s2.collection kR = false)
    (hN : hasDot kN = true)
    (hsplit : splitDot kN = r :: p :: tl)
    (hmN1 : mapHas s1.collection r = false)
    (hmN2 : mapHas s2.collection r = false) :
    SqliteProvider.get kR dv s1 = (dv, (SqliteProvider.set kR dv s1).2) ∧
    PostgresProvider.get kR dvp s2
      = (PostgresProvider.pgDefault dvp,
         (PostgresProvider.set kR (PostgresProvider.pgDefault dvp) s2).2) ∧
    SqliteProvider.get kN dv s1 = (.vNull, (SqliteProvider.set kN dv s1).2) ∧
    PostgresProvider.get kN dvp s2
      = (.vNull, (PostgresProvider.set kN (PostgresProvider.pgDefault dvp) s2).2) := by
  refine ⟨?_, ?_, ?_, ?_⟩
  · have hsp := splitDot_of_hasDot_false kR hR
    simp [SqliteProvider.get, SqliteProvider.set, hR, hmR1, hsp, mapGet_mapSet_self]
  · simp [PostgresProvider.get, PostgresProvider.set, hR, hmR2, mapGet_mapSet_self]
  · simp [SqliteProvider.get, hN, hsplit, hmN1,
      mapGet_eq_none_of_mapHas s1.collection r hmN1, jsGetPath]
  · simp [PostgresProvider.get, hN, hsplit, hmN2,
      mapGet_eq_none_of_mapHas s2.collection r hmN2, jsGetPath]

/-- C6 amended witness: the amended statement instantiated at the
root-only key `"k"`, the nested key `"a.b"` and default `5` on empty
states. -/
theorem c6_amended_get_default_witness :
    hasDot "k" = false ∧
    mapHas ([] : List (String × Value)) "k" = false ∧
    hasDot "a.b" = true ∧
    splitDot "a.b" = ["a", "b"] ∧
    mapHas ([] : List (String × Value)) "a" = false ∧
    (SqliteProvider.get "k" (Value.vNum 5) ⟨[], []⟩
        = (Value.vNum 5, (SqliteProvider.set "k" (Value.vNum 5) ⟨[], []⟩).2) ∧
     PostgresProvider.get "k" (some (Value.vNum 5)) ⟨[], []⟩
        = (PostgresProvider.pgDefault (some (Value.vNum 5)),
           (PostgresProvider.set "k"
             (PostgresProvider.pgDefault (some (Value.vNum 5))) ⟨[], []⟩).2) ∧
     SqliteProvider.get "a.b" (Value.vNum 5) ⟨[], []⟩
        = (Value.vNull, (SqliteProvider.set "a.b" (Value.vNum 5) ⟨[], []⟩).2) ∧
     PostgresProvider.get "a.b" (some (Value.vNum 5)) ⟨[], []⟩
        = (Value.vNull,
           (PostgresProvider.set "a.b"
             (PostgresProvider.pgDefault (some (Value.vNum 5))) ⟨[], []⟩).2)) :=
  ⟨rfl, rfl, rfl, by decide, rfl,
   c6_amended_get_default ⟨[], []⟩ ⟨[], []⟩ "k" "a.b" (Value.vNum 5)
     (some (Value.vNum 5)) "a" "b" [] rfl rfl rfl rfl (by decide) rfl rfl⟩

/-- C9: for a root-only key (no dot), `has` only checks cache
membership: it returns exactly the membership bit and leaves the state
— cache and backend table — unchanged, in both providers (unlike the
nested branch, which goes through `get`). -/
theorem c9_has_root_key_pure (s1 s2 : StoreState) (k : String)
    (h : hasDot k = false) :
    SqliteProvider.has k s1 = (mapHas s1.collection k, s1) ∧
    PostgresProvider.has k s2 = (mapHas s2.collection k, s2) := by
  constructor <;> simp [SqliteProvider.has, PostgresProvider.has, h]

/-- C9 witness: `has("john")` on a state holding only root `"a"`
returns `false` and the untouched state, in both providers. -/
theorem c9_has_root_key_pure_witness :
    hasDot "john" = false ∧
    (SqliteProvider.has "john" ⟨[("a", "1")], [("a", Value.vNum 1)]⟩
        = (false, ⟨[("a", "1")], [("a", Value.vNum 1)]⟩) ∧
     PostgresProvider.has "john" ⟨[("a", "1")], [("a", Value.vNum 1)]⟩
        = (false, ⟨[("a", "1")], [("a", Value.vNum 1)]⟩)) :=
  ⟨rfl, c9_has_root_key_pure ⟨[("a", "1")], [("a", Value.vNum 1)]⟩
    ⟨[("a", "1")], [("a", Value.vNum 1)]⟩ "john" rfl⟩

/-- C10: `delete(key)` never splits the key on dots: it removes
exactly the cache entry and the table rows whose key equals the full
given string, so for a dotted key the root key's cache entry and table
rows are left unchanged, in both providers. -/
theorem c10_delete_full_key_only (s1 s2 : StoreState) (k r p : String)
    (tl : List String) (h : splitDot k = r :: p :: tl) :
    r ≠ k ∧
    mapGet (SqliteProvider.delete k s1).collection r = mapGet s1.collection r ∧
    selectKey (SqliteProvider.delete k s1).table r = selectKey s1.table r ∧
    mapGet (SqliteProvider.delete k s1).collection k = none ∧
    selectKey (SqliteProvider.delete k s1).table k = [] ∧
    mapGet (PostgresProvider.delete k s2).collection r = mapGet s2.collection r ∧
    selectKey (PostgresProvider.delete k s2).table r = selectKey s2.table r ∧
    mapGet (PostgresProvider.delete k s2).collection k = none ∧
    selectKey (PostgresProvider.delete k s2).table k = [] := by
  have hne := root_ne_key k r p tl h
  refine ⟨hne, ?_, ?_, ?_, ?_, ?_, ?_, ?_, ?_⟩ <;>
    simp [SqliteProvider.delete, PostgresProvider.delete,
      mapGet_mapDelete_ne _ _ _ hne, selectKey_deleteKey_ne _ _ _ hne,
      mapGet_mapDelete_self, selectKey_deleteKey_self]

/-- C10 witness: deleting `"a.b"` on a state that has both a root row
`"a"` and a literal row `"a.b"` removes exactly the `"a.b"` row and
cache entry and preserves the `"a"` ones, in both providers. -/
theorem c10_delete_full_key_only_witness :
    splitDot "a.b" = ["a", "b"] ∧
    ("a" ≠ "a.b" ∧
     mapGet (SqliteProvider.delete "a.b"
       ⟨[("a", "1"), ("a.b", "2")], [("a", Value.vNum 1), ("a.b", Value.vNum 2)]⟩).collection "a"
       = mapGet [("a", Value.vNum 1), ("a.b", Value.vNum 2)] "a" ∧
     selectKey (SqliteProvider.delete "a.b"
       ⟨[("a", "1"), ("a.b", "2")], [("a", Value.vNum 1), ("a.b", Value.vNum 2)]⟩).table "a"
       = selectKey [("a", "1"), ("a.b", "2")] "a" ∧
     mapGet (SqliteProvider.delete "a.b"
       ⟨[("a", "1"), ("a.b", "2")], [("a", Value.vNum 1), ("a.b", Value.vNum 2)]⟩).collection "a.b"
       = none ∧
     selectKey (SqliteProvider.delete "a.b"
       ⟨[("a", "1"), ("a.b", "2")], [("a", Value.vNum 1), ("a.b", Value.vNum 2)]⟩).table "a.b"
       = [] ∧
     mapGet (PostgresProvider.delete "a.b"
       ⟨[("a", "1"), ("a.b", "2")], [("a", Value.vNum 1), ("a.b", Value.vNum 2)]⟩).collection "a"
       = mapGet [("a", Value.vNum 1), ("a.b", Value.vNum 2)] "a" ∧
     selectKey (PostgresProvider.delete "a.b"
       ⟨[("a", "1"), ("a.b", "2")], [("a", Value.vNum 1), ("a.b", Value.vNum 2)]⟩).table "a"
       = selectKey [("a", "1"), ("a.b", "2")] "a" ∧
     mapGet (PostgresProvider.delete "a.b"
       ⟨[("a", "1"), ("a.b", "2")], [("a", Value.vNum 1), ("a.b", Value.vNum 2)]⟩).collection "a.b"
       = none ∧
     selectKey (PostgresProvider.delete "a.b"
       ⟨[("a", "1"), ("a.b", "2")], [("a", Value.vNum 1), ("a.b", Value.vNum 2)]⟩).table "a.b"
       = []) :=
  ⟨by decide,
   c10_delete_full_key_only
     ⟨[("a", "1"), ("a.b", "2")], [("a", Value.vNum 1), ("a.b", Value.vNum 2)]⟩
     ⟨[("a", "1"), ("a.b", "2")], [("a", Value.vNum 1), ("a.b", Value.vNum 2)]⟩
     "a.b" "a" "b" [] (by decide)⟩

end DenoKeyv
